import Mathlib

/-!
# Verification of the RTU message-correlation core of `origami/client.py`

This file shallowly embeds the callback-dispatch engine of
`src/origami/client.py` (class `NoteableClient`): the pending-interest
registry (`type_callbacks` / `transaction_callbacks`, two
`defaultdict(LifoQueue)` maps), tracker registration
(`register_message_callback` and its `wrapped_callable`), the dispatch
loop body (`_process_messages`, lines 347-358), and the request-building
logic of `subscribe_file` and `execute`.

Modelling conventions:
* UUIDs are modelled as `Nat`; `None` as `Option.none`.
* A Python `LifoQueue` is a stack; it is modelled as a `List` whose head
  is the top of the stack (`put_nowait` conses, `get` pops the head).
* `asyncio.Future` objects are modelled by the tri-state `Slot`
  (pending / resolved-with-value / resolved-with-error).
* Registered callbacks are modelled as pure functions
  `Message → Except String String` (an exception raised by the callback
  is the `Except.error` case; callback side effects play no role in the
  claims checked here).
* Schema re-parsing (`response_schema.parse_obj` / `RTU_MESSAGE_TYPES`)
  is the identity in the model: message payloads are already structured.
* The two `while not lifo.empty()` loops of `_process_messages` are
  modelled with explicit fuel; a `none` result means the loop has not
  terminated within the given number of iterations (for every fuel).
* Trackers carry an explicit `id : Nat` used only for bookkeeping in
  theorem statements (Python distinguishes the objects by identity).
-/

set_option maxHeartbeats 1000000

/-- Tri-state result slot standing for one `asyncio.Future`:
pending, resolved with a value, or resolved with an exception. -/
inductive Slot where
  | pending : Slot
  | value : String → Slot
  | error : String → Slot
deriving DecidableEq, Repr

/-- An inbound RTU message as used by the dispatch loop: `channel`,
`event`, optional `transaction_id`, and the payload fields the embedded
code reads (`data["message"]` on the hard-error path). -/
structure Message where
  channel : String
  event : String
  transaction_id : Option Nat
  dataMessage : String
deriving DecidableEq, Repr

/-- The `CallbackTracker` record built by `register_message_callback`
(client.py lines 264-273).  `handler` is the user-supplied callable;
`next_trigger` is the result slot; `count` is the invocation counter. -/
structure CallbackTracker where
  id : Nat
  once : Bool
  count : Nat
  channel : String
  message_type : Option String
  transaction_id : Option Nat
  next_trigger : Slot
  handler : Message → Except String String

/-- One bucket of the registry: a LIFO stack of trackers, head = top. -/
abbrev Bucket := List CallbackTracker

/-- Key of `transaction_callbacks`: channel and transaction id. -/
abbrev TransKey := String × Option Nat

/-- Key of `type_callbacks`: channel and message type. -/
abbrev TypeKey := String × Option String

/-- Association-list lookup with the `defaultdict` behaviour of the
source: a missing channel or secondary key is an empty bucket. -/
def lookupBucket {κ : Type} [DecidableEq κ] : List (κ × Bucket) → κ → Bucket
  | [], _ => []
  | (k0, b) :: rest, k => if k0 = k then b else lookupBucket rest k

/-- Association-list update backing the `defaultdict` maps. -/
def setBucket {κ : Type} [DecidableEq κ] : List (κ × Bucket) → κ → Bucket → List (κ × Bucket)
  | [], k, b => [(k, b)]
  | (k0, b0) :: rest, k, b =>
    if k0 = k then (k, b) :: rest else (k0, b0) :: setBucket rest k b

/-- The registry state of `NoteableClient` (client.py lines 136-138):
`channel -> transaction_id -> callback_queue` and
`channel -> message_type -> callback_queue`. -/
structure ClientState where
  transaction_callbacks : List (TransKey × Bucket)
  type_callbacks : List (TypeKey × Bucket)

/-- The fresh registry of `NoteableClient.__init__`. -/
def emptyState : ClientState := { transaction_callbacks := [], type_callbacks := [] }

/-- Modelled from the spec: the reserved set of hard-error event names
(`RTU_ERROR_HARD_MESSAGE_TYPES` is imported from `origami/types/rtu.py`,
which is not among the provided sources).  The spec fixes only that it
is a fixed set of event names checked against `resp.event`; the members
below are representative. -/
def RTU_ERROR_HARD_MESSAGE_TYPES : List String := ["error", "permission_denied"]

/-- Outcome of one call of `wrapped_callable` on a tracker:
the tracker state after the call, the value with which the awaited
future (`next_trigger` before any re-arm) was resolved, and whether the
tracker re-inserted itself into the registry. -/
structure FireOutcome where
  tracker : CallbackTracker
  resolved : Slot
  reinsert : Bool

/-- One invocation of `wrapped_callable` (client.py lines 275-305):
increment `count`; on a hard-error event resolve the slot with a failure
carrying `data["message"]` without invoking the handler; otherwise run
the handler and resolve the slot with its result or its exception; then,
for a persistent tracker, replace the slot with a fresh pending one and
request re-insertion. -/
def fire (tracker : CallbackTracker) (resp : Message) : FireOutcome :=
  let resolved : Slot :=
    if resp.event ∈ RTU_ERROR_HARD_MESSAGE_TYPES then
      Slot.error resp.dataMessage
    else
      match tracker.handler resp with
      | Except.ok result => Slot.value result
      | Except.error err => Slot.error err
  if tracker.once then
    { tracker := { tracker with count := tracker.count + 1, next_trigger := resolved },
      resolved := resolved, reinsert := false }
  else
    { tracker := { tracker with count := tracker.count + 1, next_trigger := Slot.pending },
      resolved := resolved, reinsert := true }

/-- Re-insertion of a persistent tracker performed at the end of
`wrapped_callable` (client.py lines 300-305): into
`transaction_callbacks[channel][transaction_id]` when the tracker has a
transaction id, else into `type_callbacks[channel][message_type]`. -/
def reinsertTracker (st : ClientState) (t : CallbackTracker) : ClientState :=
  match t.transaction_id with
  | some tid =>
    let q := t :: lookupBucket st.transaction_callbacks (t.channel, some tid)
    { st with transaction_callbacks := setBucket st.transaction_callbacks (t.channel, some tid) q }
  | none =>
    let q := t :: lookupBucket st.type_callbacks (t.channel, t.message_type)
    { st with type_callbacks := setBucket st.type_callbacks (t.channel, t.message_type) q }

/-- `register_message_callback` (client.py lines 247-313): build the
tracker and push it onto the transaction-keyed bucket when a
`transaction_id` was supplied, else onto the type-keyed bucket.  The
extra `id` argument is model bookkeeping standing for object identity.
Returns the updated registry and the tracker handed back to the caller. -/
def register_message_callback (st : ClientState)
    (callable : Message → Except String String) (channel : String)
    (message_type : Option String) (transaction_id : Option Nat)
    (once : Bool) (id : Nat) : ClientState × CallbackTracker :=
  let tracker : CallbackTracker :=
    { id := id, once := once, count := 0, channel := channel,
      message_type := message_type, transaction_id := transaction_id,
      next_trigger := Slot.pending, handler := callable }
  match transaction_id with
  | some tid =>
    let q := tracker :: lookupBucket st.transaction_callbacks (channel, some tid)
    ({ st with transaction_callbacks := setBucket st.transaction_callbacks (channel, some tid) q },
     tracker)
  | none =>
    let q := tracker :: lookupBucket st.type_callbacks (channel, message_type)
    ({ st with type_callbacks := setBucket st.type_callbacks (channel, message_type) q },
     tracker)

/-- The first `while not id_lifo.empty()` loop of `_process_messages`
(client.py lines 348-352), with explicit fuel: pop the top tracker of
`transaction_callbacks[channel][transaction_id]`, fire it (which may
re-insert it through the registry), and repeat until the bucket is
empty.  `none` means the loop did not terminate within `fuel`
iterations.  The trace lists the fire outcomes in invocation order. -/
def drainTransaction : Nat → ClientState → String → Option Nat → Message →
    Option (ClientState × List FireOutcome)
  | 0, _, _, _, _ => none
  | fuel + 1, st, channel, tid, resp =>
    match lookupBucket st.transaction_callbacks (channel, tid) with
    | [] => some (st, [])
    | t :: rest =>
      let st1 : ClientState :=
        { st with transaction_callbacks :=
            setBucket st.transaction_callbacks (channel, tid) rest }
      let out := fire t resp
      let st2 := if out.reinsert then reinsertTracker st1 out.tracker else st1
      match drainTransaction fuel st2 channel tid resp with
      | none => none
      | some (st3, tr) => some (st3, out :: tr)

/-- The second `while not type_lifo.empty()` loop of `_process_messages`
(client.py lines 353-358), draining `type_callbacks[channel][event]`. -/
def drainType : Nat → ClientState → String → String → Message →
    Option (ClientState × List FireOutcome)
  | 0, _, _, _, _ => none
  | fuel + 1, st, channel, event, resp =>
    match lookupBucket st.type_callbacks (channel, some event) with
    | [] => some (st, [])
    | t :: rest =>
      let st1 : ClientState :=
        { st with type_callbacks :=
            setBucket st.type_callbacks (channel, some event) rest }
      let out := fire t resp
      let st2 := if out.reinsert then reinsertTracker st1 out.tracker else st1
      match drainType fuel st2 channel event resp with
      | none => none
      | some (st3, tr) => some (st3, out :: tr)

/-- One iteration of `_process_messages` for a successfully decoded
inbound message (client.py lines 346-358): drain the transaction-keyed
bucket for `(channel, transaction_id)` fully, then the type-keyed bucket
for `(channel, event)` fully.  Returns the registry afterwards and the
two traces (transaction-keyed firings, then type-keyed firings); the
overall invocation order is their concatenation.  `none` means the
processing of this one message never completes. -/
def processMessage (fuel : Nat) (st : ClientState) (resp : Message) :
    Option (ClientState × List FireOutcome × List FireOutcome) :=
  match drainTransaction fuel st resp.channel resp.transaction_id resp with
  | none => none
  | some (st1, trTrans) =>
    match drainType fuel st1 resp.channel resp.event resp with
    | none => none
    | some (st2, trType) => some (st2, trTrans, trType)

/-! ## Request-building operations (`subscribe_file`, `execute`) -/

/-- Modelled from the spec: the parts of the `NotebookFile` model
(`origami/types/files.py`, not among the provided sources) read by
`subscribe_file` and `execute`: the file id and the current version id. -/
structure NotebookFile where
  id : Nat
  current_version_id : Option Nat
deriving DecidableEq, Repr

/-- `files_channel` (client.py lines 446-448). -/
def files_channel (file_id : Nat) : String := "files/" ++ toString file_id

/-- The file-subscribe request assembled by `subscribe_file` via
`_gen_subscription_request` (client.py lines 418-436, 450-480):
transaction id, event name, channel, and the optional
`data["from_version_id"]` resume point. -/
structure SubscribeRequest where
  transaction_id : Nat
  event : String
  channel : String
  data_from_version_id : Option Nat
deriving DecidableEq, Repr

/-- Request construction of `subscribe_file` (client.py lines 452-479).
`file` is `UUID | NotebookFile` (`Sum.inl` = plain UUID).  The source
overwrites the `from_version_id` parameter in both branches with
`file.current_version_id`; on the plain-UUID branch this attribute
access raises `AttributeError` (a UUID has no `current_version_id`),
modelled as `Except.error`, before any request is built or sent.  The
model keeps the transaction id (`uuid4()` in the source) as an argument. -/
def subscribe_file (file : Sum Nat NotebookFile) (tid : Nat)
    (from_version_id : Option Nat) : Except String SubscribeRequest :=
  match file with
  | Sum.inr nb =>
    let file_id := nb.id
    let from_version_id := nb.current_version_id
    Except.ok
      { transaction_id := tid, event := "subscribe_request",
        channel := files_channel file_id,
        data_from_version_id := from_version_id }
  | Sum.inl _ =>
    Except.error "AttributeError: UUID object has no attribute current_version_id"

/-- `FileDeltaType` members used by the client (types/deltas.py is not
among the provided sources; member names appear in client.py). -/
inductive FileDeltaType where
  | cell_contents : FileDeltaType
  | cell_execute : FileDeltaType
deriving DecidableEq, Repr

/-- `FileDeltaAction` members used by the client. -/
inductive FileDeltaAction where
  | replace : FileDeltaAction
  | execute : FileDeltaAction
  | execute_all : FileDeltaAction
  | execute_before : FileDeltaAction
  | execute_after : FileDeltaAction
deriving DecidableEq, Repr

/-- Modelled from the spec: `NotebookFile.generate_delta_request`
(`origami/types/files.py`, not among the provided sources) builds a
document-delta request carrying the delta type, the delta action and the
target cell id (spec section 6).  The random transaction id and the
optional properties payload are omitted: no claim depends on them. -/
structure FileDeltaRequest where
  file_id : Nat
  delta_type : FileDeltaType
  delta_action : FileDeltaAction
  cell_id : Option Nat
deriving DecidableEq, Repr

/-- Modelled from the spec: request construction done by
`generate_delta_request`. -/
def generate_delta_request (file : NotebookFile) (dt : FileDeltaType)
    (da : FileDeltaAction) (cid : Option Nat) : FileDeltaRequest :=
  { file_id := file.id, delta_type := dt, delta_action := da, cell_id := cid }

/-- The argument validation and action selection of `execute`
(client.py lines 505-543).  The three `assert` statements run before the
request is built; a failing assertion is the `Except.error` case, with
the source's message, and nothing is sent.  Otherwise the action is
selected by the `if cell_id / elif before_id / elif after_id` chain,
with `before_id` / `after_id` moved into the target cell id. -/
def execute (file : NotebookFile) (cell_id before_id after_id : Option Nat) :
    Except String FileDeltaRequest :=
  if before_id.isSome && after_id.isSome then
    Except.error "Cannot define both a before_id and after_id"
  else if cell_id.isSome && after_id.isSome then
    Except.error "Cannot define both a cell_id and after_id"
  else if cell_id.isSome && before_id.isSome then
    Except.error "Cannot define both a cell_id and before_id"
  else
    match cell_id, before_id, after_id with
    | some c, _, _ =>
      Except.ok (generate_delta_request file FileDeltaType.cell_execute
        FileDeltaAction.execute (some c))
    | none, some b, _ =>
      Except.ok (generate_delta_request file FileDeltaType.cell_execute
        FileDeltaAction.execute_before (some b))
    | none, none, some a =>
      Except.ok (generate_delta_request file FileDeltaType.cell_execute
        FileDeltaAction.execute_after (some a))
    | none, none, none =>
      Except.ok (generate_delta_request file FileDeltaType.cell_execute
        FileDeltaAction.execute_all none)

/-! ## Observation helpers used by the theorem statements -/

/-- Number of trackers with the given id in a bucket. -/
def bucketCountId (b : Bucket) (i : Nat) : Nat := b.countP (fun t => t.id == i)

/-- Number of trackers with the given id in a registry map. -/
def mapCountId {κ : Type} (m : List (κ × Bucket)) (i : Nat) : Nat :=
  (m.map (fun e => bucketCountId e.2 i)).sum

/-- Number of trackers with the given id anywhere in the registry. -/
def stateCountId (st : ClientState) (i : Nat) : Nat :=
  mapCountId st.transaction_callbacks i + mapCountId st.type_callbacks i

/-- Number of firings of trackers with the given id in a trace. -/
def traceCountId (tr : List FireOutcome) (i : Nat) : Nat :=
  tr.countP (fun o => o.tracker.id == i)

/-- The tracker ids of a trace, in invocation order. -/
def traceIds (tr : List FireOutcome) : List Nat := tr.map (fun o => o.tracker.id)

/-- A tracker occurs in some bucket of a registry map. -/
def trackerInMap {κ : Type} (m : List (κ × Bucket)) (x : CallbackTracker) : Prop :=
  ∃ e ∈ m, x ∈ e.2

/-- A tracker occurs somewhere in the registry. -/
def trackerInState (st : ClientState) (x : CallbackTracker) : Prop :=
  trackerInMap st.transaction_callbacks x ∨ trackerInMap st.type_callbacks x

/-- Index of the first occurrence of a value in a list (length if absent). -/
def idxOf (i : Nat) : List Nat → Nat
  | [] => 0
  | x :: xs => if x = i then 0 else idxOf i xs + 1

/-! ## Demonstration values used by witnesses and counterexamples -/

/-- A handler that always succeeds. -/
def okHandler : Message → Except String String := fun _ => Except.ok "handled"

/-- A handler that always raises. -/
def failHandler : Message → Except String String := fun _ => Except.error "boom"

/-- A notebook file used by concrete witnesses. -/
def demoFile : NotebookFile := { id := 4, current_version_id := none }

/-- A registry holding one persistent (`once=False`) type-keyed tracker,
as registered by `register_message_callback`. -/
def persistentDemoState : ClientState :=
  (register_message_callback emptyState okHandler "files/a" (some "cell_update") none false 1).1

/-- An inbound message matching the persistent tracker of
`persistentDemoState`. -/
def persistentDemoMessage : Message :=
  { channel := "files/a", event := "cell_update", transaction_id := none, dataMessage := "" }

/-! ## Basic lemmas about the registry maps -/

theorem lookupBucket_setBucket_self {κ : Type} [DecidableEq κ]
    (m : List (κ × Bucket)) (k : κ) (b : Bucket) :
    lookupBucket (setBucket m k b) k = b := by
  induction m with
  | nil => simp [setBucket, lookupBucket]
  | cons e rest ih =>
    obtain ⟨k0, b0⟩ := e
    by_cases h : k0 = k
    · simp [setBucket, lookupBucket, h]
    · simp [setBucket, lookupBucket, h, ih]

theorem lookupBucket_setBucket_ne {κ : Type} [DecidableEq κ]
    (m : List (κ × Bucket)) (k k2 : κ) (b : Bucket) (h : k2 ≠ k) :
    lookupBucket (setBucket m k b) k2 = lookupBucket m k2 := by
  have h2 : k ≠ k2 := Ne.symm h
  induction m with
  | nil => simp [setBucket, lookupBucket, h2]
  | cons e rest ih =>
    obtain ⟨k0, b0⟩ := e
    by_cases hk : k0 = k
    · subst hk
      simp [setBucket, lookupBucket, h2]
    · by_cases hk2 : k0 = k2
      · subst hk2
        simp [setBucket, lookupBucket, hk, h2]
      · simp [setBucket, lookupBucket, hk, hk2, ih]

theorem mem_of_trackerInMap_setBucket {κ : Type} [DecidableEq κ]
    (m : List (κ × Bucket)) (k : κ) (b : Bucket) (x : CallbackTracker)
    (h : trackerInMap (setBucket m k b) x) : x ∈ b ∨ trackerInMap m x := by
  induction m with
  | nil =>
    obtain ⟨e, he, hx⟩ := h
    simp [setBucket] at he
    subst he
    exact Or.inl hx
  | cons e rest ih =>
    obtain ⟨k0, b0⟩ := e
    by_cases hk : k0 = k
    · obtain ⟨e, he, hx⟩ := h
      simp [setBucket, hk] at he
      rcases he with he | he
      · subst he; exact Or.inl hx
      · exact Or.inr ⟨e, List.mem_cons_of_mem _ he, hx⟩
    · obtain ⟨e, he, hx⟩ := h
      simp only [setBucket, hk, if_false, List.mem_cons] at he
      rcases he with he | he
      · subst he; exact Or.inr ⟨(k0, b0), List.mem_cons_self _ _, hx⟩
      · rcases ih ⟨e, he, hx⟩ with hb | ⟨e2, he2, hx2⟩
        · exact Or.inl hb
        · exact Or.inr ⟨e2, List.mem_cons_of_mem _ he2, hx2⟩

theorem trackerInMap_of_mem_lookupBucket {κ : Type} [DecidableEq κ]
    (m : List (κ × Bucket)) (k : κ) (x : CallbackTracker)
    (h : x ∈ lookupBucket m k) : trackerInMap m x := by
  induction m with
  | nil => simp [lookupBucket] at h
  | cons e rest ih =>
    obtain ⟨k0, b0⟩ := e
    by_cases hk : k0 = k
    · simp only [lookupBucket, hk, if_true] at h
      exact ⟨(k0, b0), List.mem_cons_self _ _, h⟩
    · simp only [lookupBucket, hk, if_false] at h
      obtain ⟨e2, he2, hx2⟩ := ih h
      exact ⟨e2, List.mem_cons_of_mem _ he2, hx2⟩

theorem mapCountId_setBucket {κ : Type} [DecidableEq κ]
    (m : List (κ × Bucket)) (k : κ) (b : Bucket) (i : Nat) :
    mapCountId (setBucket m k b) i + bucketCountId (lookupBucket m k) i =
      mapCountId m i + bucketCountId b i := by
  induction m with
  | nil => simp [setBucket, lookupBucket, mapCountId, bucketCountId]
  | cons e rest ih =>
    obtain ⟨k0, b0⟩ := e
    by_cases hk : k0 = k
    · simp only [setBucket, hk, if_true, lookupBucket, mapCountId, List.map_cons, List.sum_cons]
      omega
    · simp only [setBucket, hk, if_false, lookupBucket, mapCountId, List.map_cons, List.sum_cons]
      have := ih
      simp only [mapCountId] at this
      omega

theorem mapCountId_pos_of_mem {κ : Type}
    (m : List (κ × Bucket)) (x : CallbackTracker) (i : Nat)
    (h : trackerInMap m x) (hid : x.id = i) : 0 < mapCountId m i := by
  obtain ⟨e, he, hx⟩ := h
  induction m with
  | nil => simp at he
  | cons e0 rest ih =>
    simp only [List.mem_cons] at he
    rcases he with he | he
    · subst he
      have hb : 0 < bucketCountId e.2 i := by
        have : (fun t : CallbackTracker => t.id == i) x = true := by
          simp [hid]
        exact List.countP_pos_iff.mpr ⟨x, hx, this⟩
      simp only [mapCountId, List.map_cons, List.sum_cons]
      omega
    · have := ih he
      simp only [mapCountId, List.map_cons, List.sum_cons]
      simp only [mapCountId] at this
      omega

theorem bucketCountId_lookup_le_mapCountId {κ : Type} [DecidableEq κ]
    (m : List (κ × Bucket)) (k : κ) (i : Nat) :
    bucketCountId (lookupBucket m k) i ≤ mapCountId m i := by
  induction m with
  | nil => simp [lookupBucket, bucketCountId]
  | cons e rest ih =>
    obtain ⟨k0, b0⟩ := e
    by_cases hk : k0 = k
    · simp only [lookupBucket, hk, if_true, mapCountId, List.map_cons, List.sum_cons]
      omega
    · simp only [lookupBucket, hk, if_false, mapCountId, List.map_cons, List.sum_cons]
      have := ih
      simp only [mapCountId] at this
      omega

theorem bucketCountId_cons (t : CallbackTracker) (b : Bucket) (i : Nat) :
    bucketCountId (t :: b) i = (if t.id = i then 1 else 0) + bucketCountId b i := by
  by_cases h : t.id = i
  · simp only [bucketCountId, List.countP_cons, h]
    simp
    omega
  · simp [bucketCountId, List.countP_cons, h]

theorem traceCountId_cons (o : FireOutcome) (tr : List FireOutcome) (i : Nat) :
    traceCountId (o :: tr) i = (if o.tracker.id = i then 1 else 0) + traceCountId tr i := by
  by_cases h : o.tracker.id = i
  · simp only [traceCountId, List.countP_cons, h]
    simp
    omega
  · simp [traceCountId, List.countP_cons, h]

theorem traceCountId_append (tr1 tr2 : List FireOutcome) (i : Nat) :
    traceCountId (tr1 ++ tr2) i = traceCountId tr1 i + traceCountId tr2 i := by
  simp [traceCountId, List.countP_append]

theorem traceCountId_pos_of_mem (tr : List FireOutcome) (i : Nat)
    (h : i ∈ traceIds tr) : 0 < traceCountId tr i := by
  simp only [traceIds, List.mem_map] at h
  obtain ⟨o, ho, hid⟩ := h
  exact List.countP_pos_iff.mpr ⟨o, ho, by simp [hid]⟩

/-! ## Lemmas about `fire` -/

theorem fire_tracker_id (t : CallbackTracker) (m : Message) :
    (fire t m).tracker.id = t.id := by
  cases hOnce : t.once <;> simp [fire, hOnce]

theorem fire_tracker_once (t : CallbackTracker) (m : Message) :
    (fire t m).tracker.once = t.once := by
  cases hOnce : t.once <;> simp [fire, hOnce]

theorem fire_tracker_channel (t : CallbackTracker) (m : Message) :
    (fire t m).tracker.channel = t.channel := by
  cases hOnce : t.once <;> simp [fire, hOnce]

theorem fire_tracker_message_type (t : CallbackTracker) (m : Message) :
    (fire t m).tracker.message_type = t.message_type := by
  cases hOnce : t.once <;> simp [fire, hOnce]

theorem fire_tracker_transaction_id (t : CallbackTracker) (m : Message) :
    (fire t m).tracker.transaction_id = t.transaction_id := by
  cases hOnce : t.once <;> simp [fire, hOnce]

theorem fire_tracker_count (t : CallbackTracker) (m : Message) :
    (fire t m).tracker.count = t.count + 1 := by
  cases hOnce : t.once <;> simp [fire, hOnce]

theorem fire_reinsert_iff (t : CallbackTracker) (m : Message) :
    (fire t m).reinsert = true ↔ t.once = false := by
  cases hOnce : t.once <;> simp [fire, hOnce]

theorem fire_resolved_ne_pending (t : CallbackTracker) (m : Message) :
    (fire t m).resolved ≠ Slot.pending := by
  have : ∀ s : Slot,
      s = (if m.event ∈ RTU_ERROR_HARD_MESSAGE_TYPES then Slot.error m.dataMessage
        else match t.handler m with
          | Except.ok result => Slot.value result
          | Except.error err => Slot.error err) → s ≠ Slot.pending := by
    intro s hs
    by_cases hh : m.event ∈ RTU_ERROR_HARD_MESSAGE_TYPES
    · rw [if_pos hh] at hs; subst hs; intro hc; cases hc
    · rw [if_neg hh] at hs
      cases hr : t.handler m <;> rw [hr] at hs <;> subst hs <;> intro hc <;> cases hc
  cases hOnce : t.once <;> simp only [fire, hOnce] <;> simp <;> exact fun hc => this _ rfl hc

/-! ## Lemmas about `reinsertTracker` and the drain step -/

theorem stateCountId_reinsertTracker (st : ClientState) (t : CallbackTracker) (i : Nat) :
    stateCountId (reinsertTracker st t) i =
      stateCountId st i + (if t.id = i then 1 else 0) := by
  cases htid : t.transaction_id with
  | some tid =>
    have hset := mapCountId_setBucket st.transaction_callbacks (t.channel, some tid)
      (t :: lookupBucket st.transaction_callbacks (t.channel, some tid)) i
    have hcons := bucketCountId_cons t
      (lookupBucket st.transaction_callbacks (t.channel, some tid)) i
    simp only [reinsertTracker, htid, stateCountId]
    omega
  | none =>
    have hset := mapCountId_setBucket st.type_callbacks (t.channel, t.message_type)
      (t :: lookupBucket st.type_callbacks (t.channel, t.message_type)) i
    have hcons := bucketCountId_cons t
      (lookupBucket st.type_callbacks (t.channel, t.message_type)) i
    simp only [reinsertTracker, htid, stateCountId]
    omega

theorem trackerInState_reinsertTracker (st : ClientState) (t x : CallbackTracker)
    (h : trackerInState (reinsertTracker st t) x) : x = t ∨ trackerInState st x := by
  cases htid : t.transaction_id with
  | some tid =>
    simp only [reinsertTracker, htid, trackerInState] at h
    rcases h with h | h
    · rcases mem_of_trackerInMap_setBucket _ _ _ _ h with hm | hm
      · rcases List.mem_cons.mp hm with he | he
        · exact Or.inl he
        · exact Or.inr (Or.inl (trackerInMap_of_mem_lookupBucket _ _ _ he))
      · exact Or.inr (Or.inl hm)
    · exact Or.inr (Or.inr h)
  | none =>
    simp only [reinsertTracker, htid, trackerInState] at h
    rcases h with h | h
    · exact Or.inr (Or.inl h)
    · rcases mem_of_trackerInMap_setBucket _ _ _ _ h with hm | hm
      · rcases List.mem_cons.mp hm with he | he
        · exact Or.inl he
        · exact Or.inr (Or.inr (trackerInMap_of_mem_lookupBucket _ _ _ he))
      · exact Or.inr (Or.inr hm)

theorem lookup_trans_reinsertTracker (st : ClientState) (t : CallbackTracker) (k : TransKey) :
    lookupBucket (reinsertTracker st t).transaction_callbacks k =
      t :: lookupBucket st.transaction_callbacks k ∨
    lookupBucket (reinsertTracker st t).transaction_callbacks k =
      lookupBucket st.transaction_callbacks k := by
  cases htid : t.transaction_id with
  | some tid =>
    by_cases hk : k = (t.channel, some tid)
    · subst hk
      simp only [reinsertTracker, htid]
      exact Or.inl (lookupBucket_setBucket_self _ _ _)
    · simp only [reinsertTracker, htid]
      exact Or.inr (lookupBucket_setBucket_ne _ _ _ _ hk)
  | none =>
    simp only [reinsertTracker, htid]
    exact Or.inr trivial

theorem lookup_type_reinsertTracker (st : ClientState) (t : CallbackTracker) (k : TypeKey) :
    lookupBucket (reinsertTracker st t).type_callbacks k =
      t :: lookupBucket st.type_callbacks k ∨
    lookupBucket (reinsertTracker st t).type_callbacks k =
      lookupBucket st.type_callbacks k := by
  cases htid : t.transaction_id with
  | some tid =>
    simp only [reinsertTracker, htid]
    exact Or.inr trivial
  | none =>
    by_cases hk : k = (t.channel, t.message_type)
    · subst hk
      simp only [reinsertTracker, htid]
      exact Or.inl (lookupBucket_setBucket_self _ _ _)
    · simp only [reinsertTracker, htid]
      exact Or.inr (lookupBucket_setBucket_ne _ _ _ _ hk)

theorem mem_lookup_trans_afterStep (stA : ClientState) (out : FireOutcome) (k : TransKey)
    (x : CallbackTracker) (hx : x ∈ lookupBucket stA.transaction_callbacks k) :
    x ∈ lookupBucket
      (if out.reinsert then reinsertTracker stA out.tracker else stA).transaction_callbacks k := by
  by_cases hr : out.reinsert
  · rw [if_pos hr]
    rcases lookup_trans_reinsertTracker stA out.tracker k with he | he
    · rw [he]; exact List.mem_cons_of_mem _ hx
    · rw [he]; exact hx
  · rw [if_neg hr]; exact hx

theorem mem_lookup_type_afterStep (stA : ClientState) (out : FireOutcome) (k : TypeKey)
    (x : CallbackTracker) (hx : x ∈ lookupBucket stA.type_callbacks k) :
    x ∈ lookupBucket
      (if out.reinsert then reinsertTracker stA out.tracker else stA).type_callbacks k := by
  by_cases hr : out.reinsert
  · rw [if_pos hr]
    rcases lookup_type_reinsertTracker stA out.tracker k with he | he
    · rw [he]; exact List.mem_cons_of_mem _ hx
    · rw [he]; exact hx
  · rw [if_neg hr]; exact hx

theorem ids_lookup_trans_afterStep (stA : ClientState) (out : FireOutcome) (k : TransKey)
    (j : Nat)
    (hj : j ∈ (lookupBucket
      (if out.reinsert then reinsertTracker stA out.tracker else stA).transaction_callbacks
        k).map (fun t => t.id)) :
    j = out.tracker.id ∨ j ∈ (lookupBucket stA.transaction_callbacks k).map (fun t => t.id) := by
  by_cases hr : out.reinsert
  · rw [if_pos hr] at hj
    rcases lookup_trans_reinsertTracker stA out.tracker k with he | he
    · rw [he] at hj
      simp only [List.map_cons, List.mem_cons] at hj
      exact hj
    · rw [he] at hj; exact Or.inr hj
  · rw [if_neg hr] at hj; exact Or.inr hj

theorem trackerInState_afterStep (stA : ClientState) (out : FireOutcome)
    (x : CallbackTracker)
    (h : trackerInState (if out.reinsert then reinsertTracker stA out.tracker else stA) x) :
    x = out.tracker ∨ trackerInState stA x := by
  by_cases hr : out.reinsert
  · rw [if_pos hr] at h
    exact trackerInState_reinsertTracker stA out.tracker x h
  · rw [if_neg hr] at h; exact Or.inr h

theorem stateCountId_afterStep (stA : ClientState) (out : FireOutcome) (i : Nat) :
    stateCountId (if out.reinsert then reinsertTracker stA out.tracker else stA) i =
      stateCountId stA i +
        (if out.reinsert = true then (if out.tracker.id = i then 1 else 0) else 0) := by
  by_cases hr : out.reinsert
  · rw [if_pos hr, stateCountId_reinsertTracker, if_pos hr]
  · rw [if_neg hr, if_neg hr]
    omega

theorem drainTransaction_fires_all :
    ∀ (fuel : Nat) (st : ClientState) (c : String) (k : Option Nat) (m : Message)
      (st2 : ClientState) (tr : List FireOutcome),
      drainTransaction fuel st c k m = some (st2, tr) →
      ∀ x ∈ lookupBucket st.transaction_callbacks (c, k), x.id ∈ traceIds tr := by
  intro fuel
  induction fuel with
  | zero =>
    intro st c k m st2 tr h
    simp [drainTransaction] at h
  | succ fuel ih =>
    intro st c k m st2 tr h x hx
    rw [drainTransaction] at h
    split at h
    · next hB => rw [hB] at hx; simp at hx
    · next t rest hB =>
      rw [hB] at hx
      dsimp only at h
      split at h
      · exact absurd h (by simp)
      · next st3 tr2 hRec =>
        simp only [Option.some.injEq, Prod.mk.injEq] at h
        obtain ⟨hst, htr⟩ := h
        subst htr
        rcases List.mem_cons.mp hx with hxt | hxr
        · subst hxt
          simp [traceIds, fire_tracker_id]
        · have hx2 : x ∈ lookupBucket
              (if (fire t m).reinsert = true then
                reinsertTracker
                  { transaction_callbacks := setBucket st.transaction_callbacks (c, k) rest,
                    type_callbacks := st.type_callbacks } (fire t m).tracker
               else
                { transaction_callbacks := setBucket st.transaction_callbacks (c, k) rest,
                  type_callbacks := st.type_callbacks }).transaction_callbacks (c, k) := by
            apply mem_lookup_trans_afterStep
            show x ∈ lookupBucket (setBucket st.transaction_callbacks (c, k) rest) (c, k)
            rw [lookupBucket_setBucket_self]
            exact hxr
          have := ih _ _ _ _ _ _ hRec x hx2
          simp only [traceIds, List.map_cons, List.mem_cons]
          right
          simpa [traceIds] using this

theorem drainType_fires_all :
    ∀ (fuel : Nat) (st : ClientState) (c : String) (ev : String) (m : Message)
      (st2 : ClientState) (tr : List FireOutcome),
      drainType fuel st c ev m = some (st2, tr) →
      ∀ x ∈ lookupBucket st.type_callbacks (c, some ev), x.id ∈ traceIds tr := by
  intro fuel
  induction fuel with
  | zero =>
    intro st c ev m st2 tr h
    simp [drainType] at h
  | succ fuel ih =>
    intro st c ev m st2 tr h x hx
    rw [drainType] at h
    split at h
    · next hB => rw [hB] at hx; simp at hx
    · next t rest hB =>
      rw [hB] at hx
      dsimp only at h
      split at h
      · exact absurd h (by simp)
      · next st3 tr2 hRec =>
        simp only [Option.some.injEq, Prod.mk.injEq] at h
        obtain ⟨hst, htr⟩ := h
        subst htr
        rcases List.mem_cons.mp hx with hxt | hxr
        · subst hxt
          simp [traceIds, fire_tracker_id]
        · have hx2 : x ∈ lookupBucket
              (if (fire t m).reinsert = true then
                reinsertTracker
                  { transaction_callbacks := st.transaction_callbacks,
                    type_callbacks := setBucket st.type_callbacks (c, some ev) rest }
                  (fire t m).tracker
               else
                { transaction_callbacks := st.transaction_callbacks,
                  type_callbacks := setBucket st.type_callbacks (c, some ev) rest
                  }).type_callbacks (c, some ev) := by
            apply mem_lookup_type_afterStep
            show x ∈ lookupBucket (setBucket st.type_callbacks (c, some ev) rest) (c, some ev)
            rw [lookupBucket_setBucket_self]
            exact hxr
          have := ih _ _ _ _ _ _ hRec x hx2
          simp only [traceIds, List.map_cons, List.mem_cons]
          right
          simpa [traceIds] using this

theorem drainTransaction_trace_src :
    ∀ (fuel : Nat) (st : ClientState) (c : String) (k : Option Nat) (m : Message)
      (st2 : ClientState) (tr : List FireOutcome),
      drainTransaction fuel st c k m = some (st2, tr) →
      ∀ j ∈ traceIds tr,
        j ∈ (lookupBucket st.transaction_callbacks (c, k)).map (fun t => t.id) := by
  intro fuel
  induction fuel with
  | zero =>
    intro st c k m st2 tr h
    simp [drainTransaction] at h
  | succ fuel ih =>
    intro st c k m st2 tr h j hj
    rw [drainTransaction] at h
    split at h
    · next hB =>
      simp only [Option.some.injEq, Prod.mk.injEq] at h
      obtain ⟨hst, htr⟩ := h
      subst htr
      simp [traceIds] at hj
    · next t rest hB =>
      dsimp only at h
      split at h
      · exact absurd h (by simp)
      · next st3 tr2 hRec =>
        simp only [Option.some.injEq, Prod.mk.injEq] at h
        obtain ⟨hst, htr⟩ := h
        subst htr
        rw [hB]
        simp only [traceIds, List.map_cons, List.mem_cons] at hj
        rcases hj with hj | hj
        · rw [fire_tracker_id] at hj
          simp [hj]
        · have := ih _ _ _ _ _ _ hRec j (by simpa [traceIds] using hj)
          rcases ids_lookup_trans_afterStep _ _ _ _ this with he | he
          · rw [fire_tracker_id] at he
            simp [he]
          · dsimp only at he
            rw [lookupBucket_setBucket_self] at he
            simp only [List.map_cons, List.mem_cons]
            exact Or.inr he

theorem drainTransaction_type_mono :
    ∀ (fuel : Nat) (st : ClientState) (c : String) (k : Option Nat) (m : Message)
      (st2 : ClientState) (tr : List FireOutcome),
      drainTransaction fuel st c k m = some (st2, tr) →
      ∀ (k2 : TypeKey) (x : CallbackTracker),
        x ∈ lookupBucket st.type_callbacks k2 → x ∈ lookupBucket st2.type_callbacks k2 := by
  intro fuel
  induction fuel with
  | zero =>
    intro st c k m st2 tr h
    simp [drainTransaction] at h
  | succ fuel ih =>
    intro st c k m st2 tr h k2 x hx
    rw [drainTransaction] at h
    split at h
    · next hB =>
      simp only [Option.some.injEq, Prod.mk.injEq] at h
      obtain ⟨hst, htr⟩ := h
      subst hst
      exact hx
    · next t rest hB =>
      dsimp only at h
      split at h
      · exact absurd h (by simp)
      · next st3 tr2 hRec =>
        simp only [Option.some.injEq, Prod.mk.injEq] at h
        obtain ⟨hst, htr⟩ := h
        subst hst
        apply ih _ _ _ _ _ _ hRec k2 x
        apply mem_lookup_type_afterStep
        exact hx

theorem trackerInState_popTrans (st : ClientState) (c : String) (k : Option Nat)
    (t : CallbackTracker) (rest : Bucket)
    (hB : lookupBucket st.transaction_callbacks (c, k) = t :: rest) (x : CallbackTracker)
    (hx : trackerInState
      (ClientState.mk (setBucket st.transaction_callbacks (c, k) rest) st.type_callbacks) x) :
    trackerInState st x := by
  rcases hx with hx | hx
  · rcases mem_of_trackerInMap_setBucket _ _ _ _ hx with hm | hm
    · apply Or.inl
      apply trackerInMap_of_mem_lookupBucket st.transaction_callbacks (c, k)
      rw [hB]
      exact List.mem_cons_of_mem _ hm
    · exact Or.inl hm
  · exact Or.inr hx

theorem trackerInState_popType (st : ClientState) (c : String) (ev : String)
    (t : CallbackTracker) (rest : Bucket)
    (hB : lookupBucket st.type_callbacks (c, some ev) = t :: rest) (x : CallbackTracker)
    (hx : trackerInState
      (ClientState.mk st.transaction_callbacks (setBucket st.type_callbacks (c, some ev) rest)) x) :
    trackerInState st x := by
  rcases hx with hx | hx
  · exact Or.inl hx
  · rcases mem_of_trackerInMap_setBucket _ _ _ _ hx with hm | hm
    · apply Or.inr
      apply trackerInMap_of_mem_lookupBucket st.type_callbacks (c, some ev)
      rw [hB]
      exact List.mem_cons_of_mem _ hm
    · exact Or.inr hm

theorem step_preserves_once (stA : ClientState) (t : CallbackTracker) (m : Message) (i : Nat)
    (hsub : ∀ x, trackerInState stA x → x.id = i → x.once = true)
    (ht : t.id = i → t.once = true) :
    ∀ x, trackerInState
      (if (fire t m).reinsert = true then reinsertTracker stA (fire t m).tracker else stA) x →
      x.id = i → x.once = true := by
  intro x hx hid
  rcases trackerInState_afterStep _ _ _ hx with he | he
  · subst he
    rw [fire_tracker_once]
    apply ht
    rw [← fire_tracker_id t m]
    exact hid
  · exact hsub x he hid

theorem step_preserves_pinned (stA : ClientState) (t t0 : CallbackTracker) (m : Message)
    (i : Nat)
    (hsub : ∀ x, trackerInState stA x → x.id = i → x = t0)
    (hpt : t.id = i → t = t0) (ht0 : t0.once = true) :
    ∀ x, trackerInState
      (if (fire t m).reinsert = true then reinsertTracker stA (fire t m).tracker else stA) x →
      x.id = i → x = t0 := by
  intro x hx hid
  by_cases hti : t.id = i
  · have ht := hpt hti
    have hno : ¬ ((fire t m).reinsert = true) := by
      rw [fire_reinsert_iff, ht, ht0]
      simp
    rw [if_neg hno] at hx
    exact hsub x hx hid
  · rcases trackerInState_afterStep _ _ _ hx with he | he
    · subst he
      rw [fire_tracker_id] at hid
      exact absurd hid hti
    · exact hsub x he hid

theorem step_count (stA : ClientState) (t : CallbackTracker) (m : Message) (i : Nat) :
    stateCountId
      (if (fire t m).reinsert = true then reinsertTracker stA (fire t m).tracker else stA) i =
      stateCountId stA i + (if t.once = false then (if t.id = i then 1 else 0) else 0) := by
  rw [stateCountId_afterStep]
  by_cases ho : t.once = false
  · have hr : (fire t m).reinsert = true := (fire_reinsert_iff t m).mpr ho
    rw [if_pos hr, if_pos ho, fire_tracker_id]
  · have hr : ¬ ((fire t m).reinsert = true) := by
      rw [fire_reinsert_iff]
      exact ho
    rw [if_neg hr, if_neg ho]

theorem drainTransaction_count :
    ∀ (fuel : Nat) (st : ClientState) (c : String) (k : Option Nat) (m : Message)
      (st2 : ClientState) (tr : List FireOutcome) (i : Nat),
      drainTransaction fuel st c k m = some (st2, tr) →
      (∀ x, trackerInState st x → x.id = i → x.once = true) →
      stateCountId st2 i + traceCountId tr i = stateCountId st i ∧
      (∀ x, trackerInState st2 x → x.id = i → x.once = true) := by
  intro fuel
  induction fuel with
  | zero => intro st c k m st2 tr i h _; simp [drainTransaction] at h
  | succ fuel ih =>
    intro st c k m st2 tr i h hOnce
    rw [drainTransaction] at h
    split at h
    · next hB =>
      simp only [Option.some.injEq, Prod.mk.injEq] at h
      obtain ⟨hst, htr⟩ := h
      subst hst; subst htr
      exact ⟨by simp [traceCountId], hOnce⟩
    · next t rest hB =>
      dsimp only at h
      split at h
      · exact absurd h (by simp)
      · next st3 tr2 hRec =>
        simp only [Option.some.injEq, Prod.mk.injEq] at h
        obtain ⟨hst, htr⟩ := h
        subst hst; subst htr
        have htin : trackerInState st t :=
          Or.inl (trackerInMap_of_mem_lookupBucket _ _ _ (hB ▸ List.mem_cons_self t rest))
        have hsub : ∀ x, trackerInState
            (ClientState.mk (setBucket st.transaction_callbacks (c, k) rest) st.type_callbacks) x →
            x.id = i → x.once = true := fun x hx hid =>
          hOnce x (trackerInState_popTrans st c k t rest hB x hx) hid
        have hIH := ih _ _ _ _ _ _ i hRec
          (step_preserves_once _ t m i hsub (fun hti => hOnce t htin hti))
        obtain ⟨hcount3, hpres3⟩ := hIH
        refine ⟨?_, hpres3⟩
        rw [step_count] at hcount3
        have hset := mapCountId_setBucket st.transaction_callbacks (c, k) rest i
        rw [hB, bucketCountId_cons] at hset
        have hR : stateCountId
            (ClientState.mk (setBucket st.transaction_callbacks (c, k) rest) st.type_callbacks) i =
            mapCountId (setBucket st.transaction_callbacks (c, k) rest) i +
              mapCountId st.type_callbacks i := rfl
        rw [hR] at hcount3
        have hstatecnt : stateCountId st i =
            mapCountId st.transaction_callbacks i + mapCountId st.type_callbacks i := rfl
        rw [traceCountId_cons, fire_tracker_id, hstatecnt]
        by_cases hti : t.id = i
        · have htonce : t.once = true := hOnce t htin hti
          rw [htonce] at hcount3
          simp only [if_pos hti] at hset ⊢
          simp only [Bool.true_eq_false, if_false] at hcount3
          omega
        · simp only [if_neg hti] at hset ⊢
          simp only [if_neg hti, ite_self] at hcount3
          omega

theorem drainType_count :
    ∀ (fuel : Nat) (st : ClientState) (c : String) (ev : String) (m : Message)
      (st2 : ClientState) (tr : List FireOutcome) (i : Nat),
      drainType fuel st c ev m = some (st2, tr) →
      (∀ x, trackerInState st x → x.id = i → x.once = true) →
      stateCountId st2 i + traceCountId tr i = stateCountId st i ∧
      (∀ x, trackerInState st2 x → x.id = i → x.once = true) := by
  intro fuel
  induction fuel with
  | zero => intro st c ev m st2 tr i h _; simp [drainType] at h
  | succ fuel ih =>
    intro st c ev m st2 tr i h hOnce
    rw [drainType] at h
    split at h
    · next hB =>
      simp only [Option.some.injEq, Prod.mk.injEq] at h
      obtain ⟨hst, htr⟩ := h
      subst hst; subst htr
      exact ⟨by simp [traceCountId], hOnce⟩
    · next t rest hB =>
      dsimp only at h
      split at h
      · exact absurd h (by simp)
      · next st3 tr2 hRec =>
        simp only [Option.some.injEq, Prod.mk.injEq] at h
        obtain ⟨hst, htr⟩ := h
        subst hst; subst htr
        have htin : trackerInState st t :=
          Or.inr (trackerInMap_of_mem_lookupBucket _ _ _ (hB ▸ List.mem_cons_self t rest))
        have hsub : ∀ x, trackerInState
            (ClientState.mk st.transaction_callbacks (setBucket st.type_callbacks (c, some ev) rest)) x →
            x.id = i → x.once = true := fun x hx hid =>
          hOnce x (trackerInState_popType st c ev t rest hB x hx) hid
        have hIH := ih _ _ _ _ _ _ i hRec
          (step_preserves_once _ t m i hsub (fun hti => hOnce t htin hti))
        obtain ⟨hcount3, hpres3⟩ := hIH
        refine ⟨?_, hpres3⟩
        rw [step_count] at hcount3
        have hset := mapCountId_setBucket st.type_callbacks (c, some ev) rest i
        rw [hB, bucketCountId_cons] at hset
        have hR : stateCountId
            (ClientState.mk st.transaction_callbacks (setBucket st.type_callbacks (c, some ev) rest)) i =
            mapCountId st.transaction_callbacks i +
              mapCountId (setBucket st.type_callbacks (c, some ev) rest) i := rfl
        rw [hR] at hcount3
        have hstatecnt : stateCountId st i =
            mapCountId st.transaction_callbacks i + mapCountId st.type_callbacks i := rfl
        rw [traceCountId_cons, fire_tracker_id, hstatecnt]
        by_cases hti : t.id = i
        · have htonce : t.once = true := hOnce t htin hti
          rw [htonce] at hcount3
          simp only [if_pos hti] at hset ⊢
          simp only [Bool.true_eq_false, if_false] at hcount3
          omega
        · simp only [if_neg hti] at hset ⊢
          simp only [if_neg hti, ite_self] at hcount3
          omega

theorem drainTransaction_pinned :
    ∀ (fuel : Nat) (st : ClientState) (c : String) (k : Option Nat) (m : Message)
      (st2 : ClientState) (tr : List FireOutcome) (i : Nat) (t0 : CallbackTracker),
      drainTransaction fuel st c k m = some (st2, tr) →
      (∀ x, trackerInState st x → x.id = i → x = t0) →
      t0.once = true →
      (∀ o ∈ tr, o.tracker.id = i → o = fire t0 m) ∧
      (∀ x, trackerInState st2 x → x.id = i → x = t0) := by
  intro fuel
  induction fuel with
  | zero => intro st c k m st2 tr i t0 h _ _; simp [drainTransaction] at h
  | succ fuel ih =>
    intro st c k m st2 tr i t0 h hpin ht0
    rw [drainTransaction] at h
    split at h
    · next hB =>
      simp only [Option.some.injEq, Prod.mk.injEq] at h
      obtain ⟨hst, htr⟩ := h
      subst hst; subst htr
      exact ⟨by simp, hpin⟩
    · next t rest hB =>
      dsimp only at h
      split at h
      · exact absurd h (by simp)
      · next st3 tr2 hRec =>
        simp only [Option.some.injEq, Prod.mk.injEq] at h
        obtain ⟨hst, htr⟩ := h
        subst hst; subst htr
        have htin : trackerInState st t :=
          Or.inl (trackerInMap_of_mem_lookupBucket _ _ _ (hB ▸ List.mem_cons_self t rest))
        have hsub : ∀ x, trackerInState
            (ClientState.mk (setBucket st.transaction_callbacks (c, k) rest) st.type_callbacks) x →
            x.id = i → x = t0 := fun x hx hid =>
          hpin x (trackerInState_popTrans st c k t rest hB x hx) hid
        have hIH := ih _ _ _ _ _ _ i t0 hRec
          (step_preserves_pinned _ t t0 m i hsub (fun hti => hpin t htin hti) ht0) ht0
        obtain ⟨htr2, hpin3⟩ := hIH
        refine ⟨?_, hpin3⟩
        intro o ho hid
        rcases List.mem_cons.mp ho with he | he
        · subst he
          rw [fire_tracker_id] at hid
          rw [hpin t htin hid]
        · exact htr2 o he hid

theorem drainType_pinned :
    ∀ (fuel : Nat) (st : ClientState) (c : String) (ev : String) (m : Message)
      (st2 : ClientState) (tr : List FireOutcome) (i : Nat) (t0 : CallbackTracker),
      drainType fuel st c ev m = some (st2, tr) →
      (∀ x, trackerInState st x → x.id = i → x = t0) →
      t0.once = true →
      (∀ o ∈ tr, o.tracker.id = i → o = fire t0 m) ∧
      (∀ x, trackerInState st2 x → x.id = i → x = t0) := by
  intro fuel
  induction fuel with
  | zero => intro st c ev m st2 tr i t0 h _ _; simp [drainType] at h
  | succ fuel ih =>
    intro st c ev m st2 tr i t0 h hpin ht0
    rw [drainType] at h
    split at h
    · next hB =>
      simp only [Option.some.injEq, Prod.mk.injEq] at h
      obtain ⟨hst, htr⟩ := h
      subst hst; subst htr
      exact ⟨by simp, hpin⟩
    · next t rest hB =>
      dsimp only at h
      split at h
      · exact absurd h (by simp)
      · next st3 tr2 hRec =>
        simp only [Option.some.injEq, Prod.mk.injEq] at h
        obtain ⟨hst, htr⟩ := h
        subst hst; subst htr
        have htin : trackerInState st t :=
          Or.inr (trackerInMap_of_mem_lookupBucket _ _ _ (hB ▸ List.mem_cons_self t rest))
        have hsub : ∀ x, trackerInState
            (ClientState.mk st.transaction_callbacks (setBucket st.type_callbacks (c, some ev) rest)) x →
            x.id = i → x = t0 := fun x hx hid =>
          hpin x (trackerInState_popType st c ev t rest hB x hx) hid
        have hIH := ih _ _ _ _ _ _ i t0 hRec
          (step_preserves_pinned _ t t0 m i hsub (fun hti => hpin t htin hti) ht0) ht0
        obtain ⟨htr2, hpin3⟩ := hIH
        refine ⟨?_, hpin3⟩
        intro o ho hid
        rcases List.mem_cons.mp ho with he | he
        · subst he
          rw [fire_tracker_id] at hid
          rw [hpin t htin hid]
        · exact htr2 o he hid

theorem drainType_none_of_persistent :
    ∀ (fuel : Nat) (st : ClientState) (c : String) (ev : String) (m : Message),
      (∃ x ∈ lookupBucket st.type_callbacks (c, some ev),
        x.once = false ∧ x.channel = c ∧ x.message_type = some ev ∧ x.transaction_id = none) →
      drainType fuel st c ev m = none := by
  intro fuel
  induction fuel with
  | zero => intro st c ev m _; rfl
  | succ fuel ih =>
    intro st c ev m hex
    obtain ⟨x, hxmem, hxonce, hxc, hxmt, hxtid⟩ := hex
    rw [drainType]
    cases hB : lookupBucket st.type_callbacks (c, some ev) with
    | nil => rw [hB] at hxmem; simp at hxmem
    | cons t rest =>
      rw [hB] at hxmem
      dsimp only
      have hinv : ∃ y ∈ lookupBucket
          (if (fire t m).reinsert = true then
            reinsertTracker
              (ClientState.mk st.transaction_callbacks (setBucket st.type_callbacks (c, some ev) rest))
              (fire t m).tracker
           else
            ClientState.mk st.transaction_callbacks
              (setBucket st.type_callbacks (c, some ev) rest)).type_callbacks (c, some ev),
          y.once = false ∧ y.channel = c ∧ y.message_type = some ev ∧ y.transaction_id = none := by
        rcases List.mem_cons.mp hxmem with he | he
        · subst he
          have hre : (fire x m).reinsert = true := (fire_reinsert_iff x m).mpr hxonce
          have htid2 : (fire x m).tracker.transaction_id = none := by
            rw [fire_tracker_transaction_id]; exact hxtid
          have hch : (fire x m).tracker.channel = c := by
            rw [fire_tracker_channel]; exact hxc
          have hmt : (fire x m).tracker.message_type = some ev := by
            rw [fire_tracker_message_type]; exact hxmt
          rw [if_pos hre]
          refine ⟨(fire x m).tracker, ?_, ?_, ?_, ?_, ?_⟩
          · have hl : lookupBucket (reinsertTracker
                (ClientState.mk st.transaction_callbacks (setBucket st.type_callbacks (c, some ev) rest))
                (fire x m).tracker).type_callbacks (c, some ev) =
                (fire x m).tracker ::
                  lookupBucket (setBucket st.type_callbacks (c, some ev) rest) (c, some ev) := by
              simp only [reinsertTracker, htid2, hch, hmt]
              rw [lookupBucket_setBucket_self]
            rw [hl]
            exact List.mem_cons_self _ _
          · rw [fire_tracker_once]; exact hxonce
          · rw [fire_tracker_channel]; exact hxc
          · rw [fire_tracker_message_type]; exact hxmt
          · rw [fire_tracker_transaction_id]; exact hxtid
        · refine ⟨x, ?_, hxonce, hxc, hxmt, hxtid⟩
          apply mem_lookup_type_afterStep
          show x ∈ lookupBucket (setBucket st.type_callbacks (c, some ev) rest) (c, some ev)
          rw [lookupBucket_setBucket_self]
          exact he
      rw [ih _ _ _ _ hinv]

theorem traceIds_append (tr1 tr2 : List FireOutcome) :
    traceIds (tr1 ++ tr2) = traceIds tr1 ++ traceIds tr2 := by
  simp [traceIds]

theorem idxOf_lt_length (i : Nat) (l : List Nat) (h : i ∈ l) : idxOf i l < l.length := by
  induction l with
  | nil => simp at h
  | cons x xs ih =>
    by_cases hx : x = i
    · simp [idxOf, hx]
    · rcases List.mem_cons.mp h with he | he
      · exact absurd he.symm hx
      · simp only [idxOf, hx, if_false, List.length_cons]
        exact Nat.succ_lt_succ (ih he)

theorem idxOf_append_left (i : Nat) (l1 l2 : List Nat) (h : i ∈ l1) :
    idxOf i (l1 ++ l2) = idxOf i l1 := by
  induction l1 with
  | nil => simp at h
  | cons x xs ih =>
    by_cases hx : x = i
    · simp [idxOf, hx]
    · rcases List.mem_cons.mp h with he | he
      · exact absurd he.symm hx
      · simp only [List.cons_append, idxOf, hx, if_false]
        show idxOf i (xs ++ l2) + 1 = idxOf i xs + 1
        rw [ih he]

theorem idxOf_append_right_ge (i : Nat) (l1 l2 : List Nat) (h : i ∉ l1) :
    l1.length ≤ idxOf i (l1 ++ l2) := by
  induction l1 with
  | nil => simp
  | cons x xs ih =>
    have hx : x ≠ i := fun he => h (he ▸ List.mem_cons_self x xs)
    simp only [List.cons_append, idxOf, hx, if_false, List.length_cons]
    exact Nat.succ_le_succ (ih (fun he => h (List.mem_cons_of_mem _ he)))

theorem processMessage_eq (fuel : Nat) (st : ClientState) (m : Message)
    (st2 : ClientState) (tr1 tr2 : List FireOutcome)
    (h : processMessage fuel st m = some (st2, tr1, tr2)) :
    ∃ st1, drainTransaction fuel st m.channel m.transaction_id m = some (st1, tr1) ∧
      drainType fuel st1 m.channel m.event m = some (st2, tr2) := by
  unfold processMessage at h
  split at h
  · exact absurd h (by simp)
  · next st1 trA hA =>
    split at h
    · exact absurd h (by simp)
    · next st2x trB hB =>
      simp only [Option.some.injEq, Prod.mk.injEq] at h
      obtain ⟨h1, h2, h3⟩ := h
      subst h1; subst h2; subst h3
      exact ⟨st1, hA, hB⟩

theorem register_tracker_def (st : ClientState) (cb : Message → Except String String)
    (c : String) (mt : Option String) (tid : Option Nat) (once : Bool) (i : Nat) :
    (register_message_callback st cb c mt tid once i).2 =
      { id := i, once := once, count := 0, channel := c, message_type := mt,
        transaction_id := tid, next_trigger := Slot.pending, handler := cb } := by
  cases tid <;> rfl

theorem register_lookup_trans_some (st : ClientState) (cb : Message → Except String String)
    (c : String) (mt : Option String) (tid : Nat) (once : Bool) (i : Nat) :
    lookupBucket
      ((register_message_callback st cb c mt (some tid) once i).1).transaction_callbacks
      (c, some tid) =
      (register_message_callback st cb c mt (some tid) once i).2 ::
        lookupBucket st.transaction_callbacks (c, some tid) := by
  show lookupBucket (setBucket st.transaction_callbacks (c, some tid) _) (c, some tid) = _
  rw [lookupBucket_setBucket_self]
  rfl

theorem register_type_unchanged_some (st : ClientState) (cb : Message → Except String String)
    (c : String) (mt : Option String) (tid : Nat) (once : Bool) (i : Nat) :
    ((register_message_callback st cb c mt (some tid) once i).1).type_callbacks =
      st.type_callbacks := rfl

theorem register_lookup_type_none (st : ClientState) (cb : Message → Except String String)
    (c : String) (mt : Option String) (once : Bool) (i : Nat) :
    lookupBucket
      ((register_message_callback st cb c mt none once i).1).type_callbacks (c, mt) =
      (register_message_callback st cb c mt none once i).2 ::
        lookupBucket st.type_callbacks (c, mt) := by
  show lookupBucket (setBucket st.type_callbacks (c, mt) _) (c, mt) = _
  rw [lookupBucket_setBucket_self]
  rfl

theorem register_trans_unchanged_none (st : ClientState) (cb : Message → Except String String)
    (c : String) (mt : Option String) (once : Bool) (i : Nat) :
    ((register_message_callback st cb c mt none once i).1).transaction_callbacks =
      st.transaction_callbacks := rfl

theorem stateCountId_register (st : ClientState) (cb : Message → Except String String)
    (c : String) (mt : Option String) (tid : Option Nat) (once : Bool) (i j : Nat) :
    stateCountId (register_message_callback st cb c mt tid once i).1 j =
      stateCountId st j + (if i = j then 1 else 0) := by
  cases tid with
  | some tid =>
    have hset := mapCountId_setBucket st.transaction_callbacks (c, some tid)
      ((register_message_callback st cb c mt (some tid) once i).2 ::
        lookupBucket st.transaction_callbacks (c, some tid)) j
    have hcons := bucketCountId_cons (register_message_callback st cb c mt (some tid) once i).2
      (lookupBucket st.transaction_callbacks (c, some tid)) j
    rw [register_tracker_def] at hcons
    simp only [register_message_callback, stateCountId]
    simp only [register_tracker_def] at hset
    simp only [register_message_callback] at hset hcons
    omega
  | none =>
    have hset := mapCountId_setBucket st.type_callbacks (c, mt)
      ((register_message_callback st cb c mt none once i).2 ::
        lookupBucket st.type_callbacks (c, mt)) j
    have hcons := bucketCountId_cons (register_message_callback st cb c mt none once i).2
      (lookupBucket st.type_callbacks (c, mt)) j
    rw [register_tracker_def] at hcons
    simp only [register_message_callback, stateCountId]
    simp only [register_tracker_def] at hset
    simp only [register_message_callback] at hset hcons
    omega

theorem trackerInState_register (st : ClientState) (cb : Message → Except String String)
    (c : String) (mt : Option String) (tid : Option Nat) (once : Bool) (i : Nat)
    (x : CallbackTracker)
    (hx : trackerInState (register_message_callback st cb c mt tid once i).1 x) :
    x = (register_message_callback st cb c mt tid once i).2 ∨ trackerInState st x := by
  cases tid with
  | some tid =>
    rcases hx with hx | hx
    · rcases mem_of_trackerInMap_setBucket _ _ _ _ hx with hm | hm
      · rcases List.mem_cons.mp hm with he | he
        · exact Or.inl he
        · exact Or.inr (Or.inl (trackerInMap_of_mem_lookupBucket _ _ _ he))
      · exact Or.inr (Or.inl hm)
    · exact Or.inr (Or.inr hx)
  | none =>
    rcases hx with hx | hx
    · exact Or.inr (Or.inl hx)
    · rcases mem_of_trackerInMap_setBucket _ _ _ _ hx with hm | hm
      · rcases List.mem_cons.mp hm with he | he
        · exact Or.inl he
        · exact Or.inr (Or.inr (trackerInMap_of_mem_lookupBucket _ _ _ he))
      · exact Or.inr (Or.inr hm)

theorem fire_next_trigger_of_once (t : CallbackTracker) (m : Message) (h : t.once = true) :
    (fire t m).tracker.next_trigger = (fire t m).resolved := by
  simp [fire, h]

theorem drainTransaction_cons_head (fuel : Nat) (st : ClientState) (c : String)
    (k : Option Nat) (m : Message) (st2 : ClientState) (tr : List FireOutcome)
    (t : CallbackTracker) (rest : Bucket)
    (hB : lookupBucket st.transaction_callbacks (c, k) = t :: rest)
    (h : drainTransaction fuel st c k m = some (st2, tr)) :
    ∃ tr2, tr = fire t m :: tr2 := by
  cases fuel with
  | zero => simp [drainTransaction] at h
  | succ fuel =>
    rw [drainTransaction, hB] at h
    dsimp only at h
    split at h
    · exact absurd h (by simp)
    · next st3 tr3 hRec =>
      simp only [Option.some.injEq, Prod.mk.injEq] at h
      exact ⟨tr3, h.2.symm⟩

theorem once_tracker_processed (st1 : ClientState) (t0 : CallbackTracker) (i : Nat)
    (m : Message) (fuel : Nat) (res : ClientState × List FireOutcome × List FireOutcome)
    (hid0 : t0.id = i) (honce0 : t0.once = true)
    (hcnt1 : stateCountId st1 i = 1)
    (hpin1 : ∀ x, trackerInState st1 x → x.id = i → x = t0)
    (hfire : t0 ∈ lookupBucket st1.transaction_callbacks (m.channel, m.transaction_id) ∨
      t0 ∈ lookupBucket st1.type_callbacks (m.channel, some m.event))
    (hrun : processMessage fuel st1 m = some res) :
    traceCountId (res.2.1 ++ res.2.2) i = 1 ∧
    (∀ o ∈ res.2.1 ++ res.2.2, o.tracker.id = i → o = fire t0 m) ∧
    stateCountId res.1 i = 0 ∧
    (∀ x, trackerInState res.1 x → x.id ≠ i) := by
  obtain ⟨stMid, hA, hB2⟩ := processMessage_eq _ _ _ _ _ _ hrun
  have honce1 : ∀ x, trackerInState st1 x → x.id = i → x.once = true := fun x hx hid => by
    rw [hpin1 x hx hid]; exact honce0
  obtain ⟨hcntA, honceA⟩ := drainTransaction_count _ _ _ _ _ _ _ i hA honce1
  obtain ⟨htrA, hpinA⟩ := drainTransaction_pinned _ _ _ _ _ _ _ i t0 hA hpin1 honce0
  obtain ⟨hcntB, honceB⟩ := drainType_count _ _ _ _ _ _ _ i hB2 honceA
  obtain ⟨htrB, hpinB⟩ := drainType_pinned _ _ _ _ _ _ _ i t0 hB2 hpinA honce0
  have e1 : stateCountId stMid i + traceCountId res.2.1 i = stateCountId st1 i := hcntA
  have e2 : stateCountId res.1 i + traceCountId res.2.2 i = stateCountId stMid i := hcntB
  have hfired : 0 < traceCountId res.2.1 i + traceCountId res.2.2 i := by
    rcases hfire with hmem | hmem
    · have hin := drainTransaction_fires_all _ _ _ _ _ _ _ hA t0 hmem
      rw [hid0] at hin
      have := traceCountId_pos_of_mem _ _ hin
      omega
    · have hmem2 := drainTransaction_type_mono _ _ _ _ _ _ _ hA _ t0 hmem
      have hin := drainType_fires_all _ _ _ _ _ _ _ hB2 t0 hmem2
      rw [hid0] at hin
      have := traceCountId_pos_of_mem _ _ hin
      omega
  refine ⟨?_, ?_, ?_, ?_⟩
  · rw [traceCountId_append]
    omega
  · intro o ho hid
    rcases List.mem_append.mp ho with hmem | hmem
    · exact htrA o hmem hid
    · exact htrB o hmem hid
  · omega
  · intro x hx hid
    have hpos : 0 < stateCountId res.1 i := by
      have h0 : stateCountId res.1 i =
          mapCountId res.1.transaction_callbacks i + mapCountId res.1.type_callbacks i := rfl
      rcases hx with hm | hm
      · have := mapCountId_pos_of_mem _ x i hm hid
        omega
      · have := mapCountId_pos_of_mem _ x i hm hid
        omega
    omega

/-- C4: an inbound message whose event is in the reserved hard-error set always
resolves the fired tracker's result slot with a failure carrying the
server-supplied `data.message` text, and the registered handler function is not
invoked: the resolution is the same for every handler. -/
theorem C4_hard_error_bypasses_handler (t : CallbackTracker) (m : Message)
    (h : m.event ∈ RTU_ERROR_HARD_MESSAGE_TYPES) :
    (fire t m).resolved = Slot.error m.dataMessage ∧
    (∀ g : Message → Except String String,
      (fire { t with handler := g } m).resolved = Slot.error m.dataMessage) := by
  constructor
  · cases ho : t.once <;> simp [fire, ho, h]
  · intro g
    cases ho : t.once <;> simp [fire, ho, h]

/-- C4 witness: a concrete hard-error firing. -/
theorem C4_hard_error_bypasses_handler_witness :
    ((Message.mk "system" "error" none "boom").event ∈ RTU_ERROR_HARD_MESSAGE_TYPES) ∧
    (fire (CallbackTracker.mk 1 true 0 "system" none none Slot.pending okHandler)
      (Message.mk "system" "error" none "boom")).resolved = Slot.error "boom" :=
  ⟨by decide, (C4_hard_error_bypasses_handler _ _ (by decide)).1⟩

/-- C5: calling `subscribe_file` with a plain UUID raises `AttributeError`
before any request is built (the source reads `file.current_version_id` off the
UUID), and calling it with a `NotebookFile` discards the caller-supplied
`from_version_id` (here: 9) in favour of the file's `current_version_id`
(here: absent), contradicting the claim that the supplied resume point is
included in the request payload. -/
theorem C5_subscribe_file_failing_inputs :
    subscribe_file (Sum.inl 5) 7 (some 9) =
      Except.error "AttributeError: UUID object has no attribute current_version_id" ∧
    subscribe_file (Sum.inr (NotebookFile.mk 4 none)) 7 (some 9) =
      Except.ok (SubscribeRequest.mk 7 "subscribe_request" "files/4" none) :=
  ⟨rfl, rfl⟩

/-- C6: calling `execute` with two or more of `cell_id` / `before_id` /
`after_id` set fails on one of the three assertions, before any request is
built or sent. -/
theorem C6_execute_mutual_exclusion (file : NotebookFile) (cid bid aid : Option Nat)
    (h : (cid.isSome = true ∧ bid.isSome = true) ∨ (cid.isSome = true ∧ aid.isSome = true) ∨
      (bid.isSome = true ∧ aid.isSome = true)) :
    ∃ msg, execute file cid bid aid = Except.error msg := by
  rcases cid with _ | c <;> rcases bid with _ | b <;> rcases aid with _ | a <;>
    simp only [Option.isSome_none, Option.isSome_some] at h <;>
    first
      | exact ⟨_, rfl⟩
      | (exfalso; rcases h with ⟨h1, h2⟩ | ⟨h1, h2⟩ | ⟨h1, h2⟩ <;> simp at h1 h2)

/-- C6 witness: a concrete doubly-set call fails. -/
theorem C6_execute_mutual_exclusion_witness :
    ∃ msg, execute demoFile (some 1) (some 2) none = Except.error msg :=
  C6_execute_mutual_exclusion demoFile (some 1) (some 2) none (Or.inl ⟨rfl, rfl⟩)

/-- C10: with at most one of the three optional arguments set, `execute`
selects the delta action and target cell id as the source's
`if cell_id / elif before_id / elif after_id` chain does: `cell_id` gives
`execute` targeting that cell, `before_id` gives `execute_before` with
`before_id` as target, `after_id` gives `execute_after` with `after_id` as
target, and none gives `execute_all` with a null target. -/
theorem C10_execute_action_selection (file : NotebookFile) (cid bid aid : Option Nat) :
    match cid, bid, aid with
    | some x, none, none =>
      execute file (some x) none none = Except.ok
        (FileDeltaRequest.mk file.id FileDeltaType.cell_execute FileDeltaAction.execute (some x))
    | none, some b, none =>
      execute file none (some b) none = Except.ok
        (FileDeltaRequest.mk file.id FileDeltaType.cell_execute FileDeltaAction.execute_before (some b))
    | none, none, some a =>
      execute file none none (some a) = Except.ok
        (FileDeltaRequest.mk file.id FileDeltaType.cell_execute FileDeltaAction.execute_after (some a))
    | none, none, none =>
      execute file none none none = Except.ok
        (FileDeltaRequest.mk file.id FileDeltaType.cell_execute FileDeltaAction.execute_all none)
    | _, _, _ => True := by
  rcases cid with _ | c <;> rcases bid with _ | b <;> rcases aid with _ | a <;>
    first | trivial | rfl

/-- C10 witness: a concrete single-cell execute request. -/
theorem C10_execute_action_selection_witness :
    execute demoFile (some 3) none none = Except.ok
      (FileDeltaRequest.mk demoFile.id FileDeltaType.cell_execute FileDeltaAction.execute (some 3)) :=
  C10_execute_action_selection demoFile (some 3) none none

/-- C1: dispatching one single matching inbound message to a registry holding
one persistent (`once=False`) tracker never completes: `wrapped_callable`
re-inserts the tracker into the very `LifoQueue` the dispatch loop is
draining, so the loop re-fires it forever, for every iteration budget. -/
theorem C1_persistent_refire_never_completes (fuel : Nat) :
    processMessage fuel persistentDemoState persistentDemoMessage = none := by
  cases fuel with
  | zero => rfl
  | succ n =>
    have hTr : drainTransaction (n + 1) persistentDemoState persistentDemoMessage.channel
        persistentDemoMessage.transaction_id persistentDemoMessage =
        some (persistentDemoState, []) := rfl
    have hdt : drainType (n + 1) persistentDemoState persistentDemoMessage.channel
        persistentDemoMessage.event persistentDemoMessage = none := by
      apply drainType_none_of_persistent
      refine ⟨(register_message_callback emptyState okHandler "files/a"
        (some "cell_update") none false 1).2, ?_, rfl, rfl, rfl, rfl⟩
      have hb : lookupBucket persistentDemoState.type_callbacks
          (persistentDemoMessage.channel, some persistentDemoMessage.event) =
          [(register_message_callback emptyState okHandler "files/a"
            (some "cell_update") none false 1).2] := rfl
      rw [hb]
      exact List.mem_cons_self _ _
    unfold processMessage
    rw [hTr]
    dsimp only
    rw [hdt]

/-- C9 counterexample: registering a callback with neither a `message_type` nor
a `transaction_id` (both default to `None` in the source) stores a tracker
whose `message_type` is null in the type-keyed map, under the null key:
the type-keyed map does not only hold trackers with an explicit type. -/
theorem C9_null_message_type_in_type_map :
    (lookupBucket
      ((register_message_callback emptyState okHandler "files/a" none none true 1).1).type_callbacks
      ("files/a", none)).map (fun t => t.message_type) = [none] := rfl

/-- C9 (amended): every registration inserts the tracker into exactly one of
the two registry maps — the transaction-keyed one if and only if a
`transaction_id` was supplied, otherwise the type-keyed one under its
`message_type` key, which may be null — leaving the other map unchanged (and,
the id being fresh, the tracker absent from it); a persistent re-arm
re-inserts into the map selected the same way by the tracker's own
`transaction_id`. -/
theorem C9_registration_targets_exactly_one_map (st : ClientState)
    (cb : Message → Except String String) (c : String) (mt : Option String)
    (tid : Option Nat) (once : Bool) (i : Nat)
    (hfresh : stateCountId st i = 0) :
    (match tid with
     | some x =>
       lookupBucket
         ((register_message_callback st cb c mt (some x) once i).1).transaction_callbacks
         (c, some x) =
         (register_message_callback st cb c mt (some x) once i).2 ::
           lookupBucket st.transaction_callbacks (c, some x) ∧
       ((register_message_callback st cb c mt (some x) once i).1).type_callbacks =
         st.type_callbacks ∧
       ¬ trackerInMap ((register_message_callback st cb c mt (some x) once i).1).type_callbacks
           (register_message_callback st cb c mt (some x) once i).2
     | none =>
       lookupBucket
         ((register_message_callback st cb c mt none once i).1).type_callbacks (c, mt) =
         (register_message_callback st cb c mt none once i).2 ::
           lookupBucket st.type_callbacks (c, mt) ∧
       ((register_message_callback st cb c mt none once i).1).transaction_callbacks =
         st.transaction_callbacks ∧
       ¬ trackerInMap
           ((register_message_callback st cb c mt none once i).1).transaction_callbacks
           (register_message_callback st cb c mt none once i).2) ∧
    (∀ t0 : CallbackTracker,
      match t0.transaction_id with
      | some x =>
        lookupBucket (reinsertTracker st t0).transaction_callbacks (t0.channel, some x) =
          t0 :: lookupBucket st.transaction_callbacks (t0.channel, some x) ∧
        (reinsertTracker st t0).type_callbacks = st.type_callbacks
      | none =>
        lookupBucket (reinsertTracker st t0).type_callbacks (t0.channel, t0.message_type) =
          t0 :: lookupBucket st.type_callbacks (t0.channel, t0.message_type) ∧
        (reinsertTracker st t0).transaction_callbacks = st.transaction_callbacks) := by
  constructor
  · cases tid with
    | some x =>
      refine ⟨register_lookup_trans_some st cb c mt x once i,
        register_type_unchanged_some st cb c mt x once i, ?_⟩
      intro hmem
      rw [register_type_unchanged_some] at hmem
      have hpos := mapCountId_pos_of_mem st.type_callbacks _ i hmem
        (by rw [register_tracker_def])
      have h0 : stateCountId st i =
          mapCountId st.transaction_callbacks i + mapCountId st.type_callbacks i := rfl
      omega
    | none =>
      refine ⟨register_lookup_type_none st cb c mt once i,
        register_trans_unchanged_none st cb c mt once i, ?_⟩
      intro hmem
      rw [register_trans_unchanged_none] at hmem
      have hpos := mapCountId_pos_of_mem st.transaction_callbacks _ i hmem
        (by rw [register_tracker_def])
      have h0 : stateCountId st i =
          mapCountId st.transaction_callbacks i + mapCountId st.type_callbacks i := rfl
      omega
  · intro t0
    cases htid : t0.transaction_id with
    | some x =>
      refine ⟨?_, ?_⟩
      · simp only [reinsertTracker, htid]
        rw [lookupBucket_setBucket_self]
      · simp only [reinsertTracker, htid]
    | none =>
      refine ⟨?_, ?_⟩
      · simp only [reinsertTracker, htid]
        rw [lookupBucket_setBucket_self]
      · simp only [reinsertTracker, htid]

/-- C9 witness: a concrete fresh registration. -/
theorem C9_registration_targets_exactly_one_map_witness :
    stateCountId emptyState 3 = 0 ∧
    lookupBucket
      ((register_message_callback emptyState okHandler "system" none (some 8) true 3).1).transaction_callbacks
      ("system", some 8) =
      (register_message_callback emptyState okHandler "system" none (some 8) true 3).2 ::
        lookupBucket emptyState.transaction_callbacks ("system", some 8) :=
  ⟨rfl, ((C9_registration_targets_exactly_one_map emptyState okHandler "system" none
    (some 8) true 3 rfl).1).1⟩

/-- C7: with two trackers registered for the same `(channel, transaction_id)`,
the later-registered one sits on top of the LIFO bucket, so on the next
matching message it fires strictly before the earlier one. -/
theorem C7_lifo_within_bucket
    (st : ClientState) (cb1 cb2 : Message → Except String String)
    (c : String) (tid : Nat) (once1 once2 : Bool) (i1 i2 : Nat)
    (m : Message) (fuel : Nat) (res : ClientState × List FireOutcome × List FireOutcome)
    (hne : i1 ≠ i2)
    (hmc : m.channel = c) (hmt : m.transaction_id = some tid)
    (hrun : processMessage fuel
      (register_message_callback
        (register_message_callback st cb1 c none (some tid) once1 i1).1
        cb2 c none (some tid) once2 i2).1 m = some res) :
    i1 ∈ traceIds res.2.1 ∧ i2 ∈ traceIds res.2.1 ∧
    idxOf i2 (traceIds res.2.1) < idxOf i1 (traceIds res.2.1) := by
  obtain ⟨stMid, hA, hB2⟩ := processMessage_eq _ _ _ _ _ _ hrun
  have hbucket : lookupBucket
      ((register_message_callback
        (register_message_callback st cb1 c none (some tid) once1 i1).1
        cb2 c none (some tid) once2 i2).1).transaction_callbacks
      (m.channel, m.transaction_id) =
      (register_message_callback
        (register_message_callback st cb1 c none (some tid) once1 i1).1
        cb2 c none (some tid) once2 i2).2 ::
      (register_message_callback st cb1 c none (some tid) once1 i1).2 ::
        lookupBucket st.transaction_callbacks (c, some tid) := by
    rw [hmc, hmt, register_lookup_trans_some, register_lookup_trans_some]
  obtain ⟨trTail, htr⟩ := drainTransaction_cons_head _ _ _ _ _ _ _ _ _ hbucket hA
  have hin1 : i1 ∈ traceIds res.2.1 := by
    have hm1 : (register_message_callback st cb1 c none (some tid) once1 i1).2 ∈
        lookupBucket
          ((register_message_callback
            (register_message_callback st cb1 c none (some tid) once1 i1).1
            cb2 c none (some tid) once2 i2).1).transaction_callbacks
          (m.channel, m.transaction_id) := by
      rw [hbucket]
      exact List.mem_cons_of_mem _ (List.mem_cons_self _ _)
    have hfa := drainTransaction_fires_all _ _ _ _ _ _ _ hA _ hm1
    exact hfa
  have hhead : traceIds res.2.1 = i2 :: traceIds trTail := by
    rw [htr]
    simp only [traceIds, List.map_cons]
    rw [fire_tracker_id, register_tracker_def]
  refine ⟨hin1, ?_, ?_⟩
  · rw [hhead]
    exact List.mem_cons_self _ _
  · rw [hhead] at hin1 ⊢
    have h2 : idxOf i2 (i2 :: traceIds trTail) = 0 := by simp [idxOf]
    have h1 : idxOf i1 (i2 :: traceIds trTail) = idxOf i1 (traceIds trTail) + 1 := by
      simp [idxOf, Ne.symm hne]
    omega

/-- C7 witness: two once trackers on one transaction key; the later one fires
first on the matching message. -/
theorem C7_lifo_within_bucket_witness :
    ∃ res, processMessage 6
      (register_message_callback
        (register_message_callback emptyState okHandler "system" none (some 5) true 1).1
        okHandler "system" none (some 5) true 2).1
      (Message.mk "system" "pong" (some 5) "") = some res ∧
      idxOf 2 (traceIds res.2.1) < idxOf 1 (traceIds res.2.1) := by
  refine ⟨_, rfl, ?_⟩
  exact (C7_lifo_within_bucket emptyState okHandler okHandler "system" 5 true true 1 2
    (Message.mk "system" "pong" (some 5) "") 6 _ (by decide) rfl rfl rfl).2.2

/-- C8: when the registered handler raises on a matching message, the
exception is captured: the tracker's slot is resolved with exactly that
failure, nothing escapes into the dispatch loop, and the drain continues —
the earlier-registered tracker in the same bucket still fires afterwards. -/
theorem C8_handler_failure_captured
    (st : ClientState) (cbu cbt : Message → Except String String)
    (c : String) (tid : Nat) (iu it : Nat) (m : Message) (e : String)
    (fuel : Nat) (res : ClientState × List FireOutcome × List FireOutcome)
    (hne : it ≠ iu)
    (hhard : m.event ∉ RTU_ERROR_HARD_MESSAGE_TYPES)
    (herr : cbt m = Except.error e)
    (hmc : m.channel = c) (hmt : m.transaction_id = some tid)
    (hrun : processMessage fuel
      (register_message_callback
        (register_message_callback st cbu c none (some tid) true iu).1
        cbt c none (some tid) true it).1 m = some res) :
    (∃ o ∈ res.2.1, o.tracker.id = it ∧ o.resolved = Slot.error e) ∧
    iu ∈ traceIds res.2.1 ∧
    idxOf it (traceIds res.2.1) < idxOf iu (traceIds res.2.1) := by
  obtain ⟨stMid, hA, hB2⟩ := processMessage_eq _ _ _ _ _ _ hrun
  have hbucket : lookupBucket
      ((register_message_callback
        (register_message_callback st cbu c none (some tid) true iu).1
        cbt c none (some tid) true it).1).transaction_callbacks
      (m.channel, m.transaction_id) =
      (register_message_callback
        (register_message_callback st cbu c none (some tid) true iu).1
        cbt c none (some tid) true it).2 ::
      (register_message_callback st cbu c none (some tid) true iu).2 ::
        lookupBucket st.transaction_callbacks (c, some tid) := by
    rw [hmc, hmt, register_lookup_trans_some, register_lookup_trans_some]
  obtain ⟨trTail, htr⟩ := drainTransaction_cons_head _ _ _ _ _ _ _ _ _ hbucket hA
  have hres : (fire (register_message_callback
      (register_message_callback st cbu c none (some tid) true iu).1
      cbt c none (some tid) true it).2 m).resolved = Slot.error e := by
    rw [register_tracker_def]
    simp [fire, hhard, herr]
  have hidt : (fire (register_message_callback
      (register_message_callback st cbu c none (some tid) true iu).1
      cbt c none (some tid) true it).2 m).tracker.id = it := by
    rw [fire_tracker_id, register_tracker_def]
  have hinu : iu ∈ traceIds res.2.1 := by
    have hm1 : (register_message_callback st cbu c none (some tid) true iu).2 ∈
        lookupBucket
          ((register_message_callback
            (register_message_callback st cbu c none (some tid) true iu).1
            cbt c none (some tid) true it).1).transaction_callbacks
          (m.channel, m.transaction_id) := by
      rw [hbucket]
      exact List.mem_cons_of_mem _ (List.mem_cons_self _ _)
    exact drainTransaction_fires_all _ _ _ _ _ _ _ hA _ hm1
  have hhead : traceIds res.2.1 = it :: traceIds trTail := by
    rw [htr]
    simp only [traceIds, List.map_cons]
    rw [hidt]
  refine ⟨?_, hinu, ?_⟩
  · refine ⟨fire (register_message_callback
      (register_message_callback st cbu c none (some tid) true iu).1
      cbt c none (some tid) true it).2 m, ?_, hidt, hres⟩
    rw [htr]
    exact List.mem_cons_self _ _
  · rw [hhead] at hinu ⊢
    have h2 : idxOf it (it :: traceIds trTail) = 0 := by simp [idxOf]
    have h1 : idxOf iu (it :: traceIds trTail) = idxOf iu (traceIds trTail) + 1 := by
      simp [idxOf, hne]
    omega

/-- C8 witness: a failing handler resolves its slot with the failure and the
drain still fires the earlier tracker. -/
theorem C8_handler_failure_captured_witness :
    ((Message.mk "system" "pong" (some 5) "").event ∉ RTU_ERROR_HARD_MESSAGE_TYPES) ∧
    ∃ res, processMessage 6
      (register_message_callback
        (register_message_callback emptyState okHandler "system" none (some 5) true 1).1
        failHandler "system" none (some 5) true 2).1
      (Message.mk "system" "pong" (some 5) "") = some res ∧
      (∃ o ∈ res.2.1, o.tracker.id = 2 ∧ o.resolved = Slot.error "boom") := by
  refine ⟨by decide, _, rfl, ?_⟩
  exact (C8_handler_failure_captured emptyState okHandler failHandler "system" 5 1 2
    (Message.mk "system" "pong" (some 5) "") "boom" 6 _ (by decide) (by decide) rfl rfl rfl
    rfl).1

/-- C2: for one inbound message matching a transaction-keyed tracker and a
type-keyed tracker on the same channel, the transaction-keyed one is invoked
in the transaction drain (the first loop), the type-keyed one in the type
drain (the second loop), and the transaction-keyed firing strictly precedes
the type-keyed firing in the overall invocation order. -/
theorem C2_transaction_before_type
    (st : ClientState) (cba cbb : Message → Except String String)
    (c : String) (tid : Nat) (ev : String) (oncea onceb : Bool) (ia ib : Nat)
    (m : Message) (fuel : Nat) (res : ClientState × List FireOutcome × List FireOutcome)
    (hne : ia ≠ ib) (hfb : stateCountId st ib = 0)
    (hmc : m.channel = c) (hmt : m.transaction_id = some tid) (hme : m.event = ev)
    (hrun : processMessage fuel
      (register_message_callback
        (register_message_callback st cba c none (some tid) oncea ia).1
        cbb c (some ev) none onceb ib).1 m = some res) :
    (∃ o ∈ res.2.1, o.tracker.id = ia) ∧
    (∃ o ∈ res.2.2, o.tracker.id = ib) ∧
    idxOf ia (traceIds (res.2.1 ++ res.2.2)) < idxOf ib (traceIds (res.2.1 ++ res.2.2)) := by
  obtain ⟨stMid, hA, hB2⟩ := processMessage_eq _ _ _ _ _ _ hrun
  have hbtrans : lookupBucket
      ((register_message_callback
        (register_message_callback st cba c none (some tid) oncea ia).1
        cbb c (some ev) none onceb ib).1).transaction_callbacks
      (m.channel, m.transaction_id) =
      (register_message_callback st cba c none (some tid) oncea ia).2 ::
        lookupBucket st.transaction_callbacks (c, some tid) := by
    rw [hmc, hmt]
    have hu : ((register_message_callback
        (register_message_callback st cba c none (some tid) oncea ia).1
        cbb c (some ev) none onceb ib).1).transaction_callbacks =
        ((register_message_callback st cba c none (some tid) oncea ia).1).transaction_callbacks :=
      register_trans_unchanged_none _ _ _ _ _ _
    rw [hu, register_lookup_trans_some]
  have hbtype : lookupBucket
      ((register_message_callback
        (register_message_callback st cba c none (some tid) oncea ia).1
        cbb c (some ev) none onceb ib).1).type_callbacks
      (m.channel, some m.event) =
      (register_message_callback
        (register_message_callback st cba c none (some tid) oncea ia).1
        cbb c (some ev) none onceb ib).2 ::
        lookupBucket
          ((register_message_callback st cba c none (some tid) oncea ia).1).type_callbacks
          (c, some ev) := by
    rw [hmc, hme, register_lookup_type_none]
  have hina : ia ∈ traceIds res.2.1 := by
    have hm1 : (register_message_callback st cba c none (some tid) oncea ia).2 ∈
        lookupBucket
          ((register_message_callback
            (register_message_callback st cba c none (some tid) oncea ia).1
            cbb c (some ev) none onceb ib).1).transaction_callbacks
          (m.channel, m.transaction_id) := by
      rw [hbtrans]
      exact List.mem_cons_self _ _
    exact drainTransaction_fires_all _ _ _ _ _ _ _ hA _ hm1
  have hinb : ib ∈ traceIds res.2.2 := by
    have hm1 : (register_message_callback
        (register_message_callback st cba c none (some tid) oncea ia).1
        cbb c (some ev) none onceb ib).2 ∈
        lookupBucket
          ((register_message_callback
            (register_message_callback st cba c none (some tid) oncea ia).1
            cbb c (some ev) none onceb ib).1).type_callbacks
          (m.channel, some m.event) := by
      rw [hbtype]
      exact List.mem_cons_self _ _
    have hm2 := drainTransaction_type_mono _ _ _ _ _ _ _ hA _ _ hm1
    exact drainType_fires_all _ _ _ _ _ _ _ hB2 _ hm2
  have hnotb : ib ∉ traceIds res.2.1 := by
    intro hin
    have hsrc := drainTransaction_trace_src _ _ _ _ _ _ _ hA ib hin
    rw [hbtrans] at hsrc
    simp only [List.map_cons, List.mem_cons] at hsrc
    rcases hsrc with he | he
    · have hiaib : ia = ib := he.symm
      exact hne hiaib
    · obtain ⟨x, hxmem, hxid⟩ := List.mem_map.mp he
      have hpos := mapCountId_pos_of_mem st.transaction_callbacks x ib
        (trackerInMap_of_mem_lookupBucket _ _ _ hxmem) hxid
      have h0 : stateCountId st ib =
          mapCountId st.transaction_callbacks ib + mapCountId st.type_callbacks ib := rfl
      omega
  refine ⟨?_, ?_, ?_⟩
  · obtain ⟨o, ho, hoid⟩ := List.mem_map.mp hina
    exact ⟨o, ho, hoid⟩
  · obtain ⟨o, ho, hoid⟩ := List.mem_map.mp hinb
    exact ⟨o, ho, hoid⟩
  · rw [traceIds_append]
    have hlt := idxOf_lt_length ia _ hina
    rw [idxOf_append_left _ _ _ hina]
    have hge := idxOf_append_right_ge ib (traceIds res.2.1) (traceIds res.2.2) hnotb
    omega

/-- C2 witness: a message matching both a transaction tracker and a type
tracker; the transaction one fires first. -/
theorem C2_transaction_before_type_witness :
    ∃ res, processMessage 6
      (register_message_callback
        (register_message_callback emptyState okHandler "system" none (some 5) true 1).1
        okHandler "system" (some "pong") none true 2).1
      (Message.mk "system" "pong" (some 5) "") = some res ∧
      idxOf 1 (traceIds (res.2.1 ++ res.2.2)) < idxOf 2 (traceIds (res.2.1 ++ res.2.2)) := by
  refine ⟨_, rfl, ?_⟩
  exact (C2_transaction_before_type emptyState okHandler okHandler "system" 5 "pong"
    true true 1 2 (Message.mk "system" "pong" (some 5) "") 6 _ (by decide) rfl rfl rfl rfl
    rfl).2.2

/-- C3: a tracker registered with `once=True` whose key matches one processed
inbound message fires exactly once during that processing: its slot is
resolved exactly once (with a value or a failure, never left pending), its
invocation count is 1, and afterwards no tracker with its id remains anywhere
in either registry map. -/
theorem C3_once_tracker_retired
    (st : ClientState) (cb : Message → Except String String)
    (c : String) (mt : Option String) (tid : Option Nat) (i : Nat)
    (m : Message) (fuel : Nat) (res : ClientState × List FireOutcome × List FireOutcome)
    (hfresh : stateCountId st i = 0)
    (hmc : m.channel = c)
    (hkey : match tid with
      | some x => m.transaction_id = some x
      | none => mt = some m.event)
    (hrun : processMessage fuel (register_message_callback st cb c mt tid true i).1 m =
      some res) :
    traceCountId (res.2.1 ++ res.2.2) i = 1 ∧
    (∀ o ∈ res.2.1 ++ res.2.2, o.tracker.id = i →
      o = fire (register_message_callback st cb c mt tid true i).2 m) ∧
    (fire (register_message_callback st cb c mt tid true i).2 m).resolved ≠ Slot.pending ∧
    (fire (register_message_callback st cb c mt tid true i).2 m).tracker.count = 1 ∧
    (fire (register_message_callback st cb c mt tid true i).2 m).tracker.next_trigger =
      (fire (register_message_callback st cb c mt tid true i).2 m).resolved ∧
    stateCountId res.1 i = 0 ∧
    (∀ x, trackerInState res.1 x → x.id ≠ i) := by
  have hid0 : (register_message_callback st cb c mt tid true i).2.id = i := by
    rw [register_tracker_def]
  have honce0 : (register_message_callback st cb c mt tid true i).2.once = true := by
    rw [register_tracker_def]
  have hcnt1 : stateCountId (register_message_callback st cb c mt tid true i).1 i = 1 := by
    rw [stateCountId_register, hfresh]
    simp
  have hpin1 : ∀ x, trackerInState (register_message_callback st cb c mt tid true i).1 x →
      x.id = i → x = (register_message_callback st cb c mt tid true i).2 := by
    intro x hx hid
    rcases trackerInState_register _ _ _ _ _ _ _ x hx with he | he
    · exact he
    · exfalso
      have h0 : stateCountId st i =
          mapCountId st.transaction_callbacks i + mapCountId st.type_callbacks i := rfl
      rcases he with hm | hm
      · have := mapCountId_pos_of_mem _ x i hm hid
        omega
      · have := mapCountId_pos_of_mem _ x i hm hid
        omega
  have hfire : (register_message_callback st cb c mt tid true i).2 ∈
      lookupBucket ((register_message_callback st cb c mt tid true i).1).transaction_callbacks
        (m.channel, m.transaction_id) ∨
      (register_message_callback st cb c mt tid true i).2 ∈
      lookupBucket ((register_message_callback st cb c mt tid true i).1).type_callbacks
        (m.channel, some m.event) := by
    cases tid with
    | some x =>
      left
      have hkey2 : m.transaction_id = some x := hkey
      rw [hmc, hkey2, register_lookup_trans_some]
      exact List.mem_cons_self _ _
    | none =>
      right
      have hkey2 : mt = some m.event := hkey
      rw [hmc, ← hkey2, register_lookup_type_none]
      exact List.mem_cons_self _ _
  obtain ⟨hcount, hpinned, habsent0, habsent⟩ :=
    once_tracker_processed _ _ i m fuel res hid0 honce0 hcnt1 hpin1 hfire hrun
  refine ⟨hcount, hpinned, fire_resolved_ne_pending _ _, ?_,
    fire_next_trigger_of_once _ _ honce0, habsent0, habsent⟩
  rw [fire_tracker_count, register_tracker_def]

/-- C3 witness: a concrete once tracker on a transaction key fires exactly
once and is gone from the registry afterwards. -/
theorem C3_once_tracker_retired_witness :
    ∃ res, processMessage 4
      (register_message_callback emptyState okHandler "system" none (some 5) true 1).1
      (Message.mk "system" "pong" (some 5) "") = some res ∧
      traceCountId (res.2.1 ++ res.2.2) 1 = 1 ∧ stateCountId res.1 1 = 0 := by
  refine ⟨_, rfl, ?_, ?_⟩
  · exact (C3_once_tracker_retired emptyState okHandler "system" none (some 5) 1
      (Message.mk "system" "pong" (some 5) "") 4 _ rfl rfl rfl rfl).1
  · exact (C3_once_tracker_retired emptyState okHandler "system" none (some 5) 1
      (Message.mk "system" "pong" (some 5) "") 4 _ rfl rfl rfl rfl).2.2.2.2.2.1
